import Mathlib

/-!
A shallow embedding, in Lean 4, of the scheduler and lifecycle orchestrator of
the `collector` daemon (Go sources: `scheduler/scheduler.go` and the `main`
package), together with theorems settling the specification claims about it.

Conventions of the embedding:
* Go time instants are natural numbers (`Nat`).
* `connectToDb` (which wraps `sql.Open` + `db.Ping`) is an oracle parameter
  `connect : DatabaseConfig → Except String Nat`: an error is its Go error
  string (`err.Error()`), a success is an opaque connection handle.
* `cronexpr.Parse` is an oracle `parse : String → Option CronExpr`.
* Go maps are association lists; a Go map read `m[k]` that misses yields the
  zero value (`""` for strings), embedded as `(List.lookup k m).getD ""`.
* The nondeterminism of a Go `select` with several ready cases is an explicit
  tie-break parameter.
-/

namespace Collector

/-- Connection parameters of one target, from `config.DatabaseConfig`.
Only the fields the orchestrator core reads are carried; the rest of the
configuration is condensed into `otherParams`. -/
structure DatabaseConfig where
  sectionName : String
  dbSslMode : String
  otherParams : String
  deriving Repr, DecidableEq

/-- `type configAndConnection struct { config config.DatabaseConfig; connection *sql.DB }`.
A `*sql.DB` that is nil is `none`. -/
structure ConfigAndConnection where
  config : DatabaseConfig
  connection : Option Nat
  deriving Repr, DecidableEq

/-- The exact error string recognized by `establishConnection`
(`err.Error() == "pq: SSL is not enabled on the server"`). -/
def sslNotEnabledError : String := "pq: SSL is not enabled on the server"

/-- Embedding of `establishConnection` (part_000 lines 148-166).  The record
is initialized from the caller's `config` before any sslmode rewriting; when
the requested mode is "prefer" the first connect uses "require", and exactly
when that attempt's error string equals `sslNotEnabledError` a second connect
with "disable" is made.  Besides the Go results (record, error) the embedding
also returns, for observability, the list of configurations passed to
`connectToDb`, in order. -/
def establishConnection (connect : DatabaseConfig → Except String Nat)
    (config : DatabaseConfig) :
    ConfigAndConnection × Option String × List DatabaseConfig :=
  let database : ConfigAndConnection := { config := config, connection := none }
  let requestedSslMode := config.dbSslMode
  let config1 := if requestedSslMode = "prefer"
    then { config with dbSslMode := "require" } else config
  match connect config1 with
  | .ok db => ({ database with connection := some db }, none, [config1])
  | .error e =>
    if e = sslNotEnabledError ∧ requestedSslMode = "prefer" then
      let config2 := { config1 with dbSslMode := "disable" }
      match connect config2 with
      | .ok db => ({ database with connection := some db }, none, [config1, config2])
      | .error e2 => ({ database with connection := none }, some e2, [config1, config2])
    else ({ database with connection := none }, some e, [config1])

/-- C4. For a target whose requested SSL mode is "prefer", the first attempt
rewrites the mode to "require"; exactly when that attempt fails with the
recognized `sslNotEnabledError` string there is a single retry with the mode
rewritten to "disable" whose outcome is returned; any other first-attempt
failure is returned as-is after a single attempt; and any mode other than
"prefer" gives exactly one attempt with the configuration passed verbatim. -/
theorem establish_prefer_fallback (connect : DatabaseConfig → Except String Nat)
    (config : DatabaseConfig) :
    (config.dbSslMode = "prefer" →
      (∀ db, connect { config with dbSslMode := "require" } = .ok db →
        establishConnection connect config =
          ({ config := config, connection := some db }, none,
            [{ config with dbSslMode := "require" }])) ∧
      (connect { config with dbSslMode := "require" } = .error sslNotEnabledError →
        establishConnection connect config =
          (match connect { config with dbSslMode := "disable" } with
            | .ok db => ({ config := config, connection := some db }, none,
                [{ config with dbSslMode := "require" },
                 { config with dbSslMode := "disable" }])
            | .error e2 => ({ config := config, connection := none }, some e2,
                [{ config with dbSslMode := "require" },
                 { config with dbSslMode := "disable" }]))) ∧
      (∀ e, connect { config with dbSslMode := "require" } = .error e →
        e ≠ sslNotEnabledError →
        establishConnection connect config =
          ({ config := config, connection := none }, some e,
            [{ config with dbSslMode := "require" }]))) ∧
    (config.dbSslMode ≠ "prefer" →
      establishConnection connect config =
        (match connect config with
          | .ok db => ({ config := config, connection := some db }, none, [config])
          | .error e => ({ config := config, connection := none }, some e, [config]))) := by
  constructor
  · intro hp
    refine ⟨?_, ?_, ?_⟩
    · intro db hdb
      simp [establishConnection, hp, hdb]
    · intro herr
      simp only [establishConnection, hp, ite_true, if_pos rfl]
      rw [herr]
      simp
    · intro e he hne
      simp [establishConnection, hp, he, hne]
  · intro hnp
    simp only [establishConnection, if_neg hnp]
    cases h : connect config with
    | ok db => simp [h]
    | error e =>
      have : ¬(e = sslNotEnabledError ∧ config.dbSslMode = "prefer") := by
        rintro ⟨-, h2⟩; exact hnp h2
      simp [h, this]

/-- Witness for `establish_prefer_fallback`: a "prefer" target whose
required-mode attempt fails with the recognized error and whose disabled-mode
retry succeeds yields exactly the two rewritten attempts. -/
theorem establish_prefer_fallback_witness :
    establishConnection
      (fun c => if c.dbSslMode = "require" then .error sslNotEnabledError else .ok 7)
      { sectionName := "db1", dbSslMode := "prefer", otherParams := "" } =
      ({ config := { sectionName := "db1", dbSslMode := "prefer", otherParams := "" },
         connection := some 7 }, none,
        [{ sectionName := "db1", dbSslMode := "require", otherParams := "" },
         { sectionName := "db1", dbSslMode := "disable", otherParams := "" }]) := by
  have h := (establish_prefer_fallback
      (fun c => if c.dbSslMode = "require" then .error sslNotEnabledError else .ok 7)
      { sectionName := "db1", dbSslMode := "prefer", otherParams := "" }).1
      rfl |>.2.1 rfl
  simpa using h

/-- C10. The record returned by `establishConnection` always carries the
original target configuration — in particular the originally requested SSL
mode — even when the "prefer" fallback connected with a rewritten mode; on
failure the record has the configuration populated and a nil connection, and
on success a live connection. -/
theorem establish_record_preserves_config
    (connect : DatabaseConfig → Except String Nat) (config : DatabaseConfig) :
    (establishConnection connect config).1.config = config ∧
    (∀ e, (establishConnection connect config).2.1 = some e →
      (establishConnection connect config).1.connection = none) ∧
    ((establishConnection connect config).2.1 = none →
      ∃ db, (establishConnection connect config).1.connection = some db) := by
  by_cases hp : config.dbSslMode = "prefer" <;>
    simp only [establishConnection, hp, if_pos, if_neg, ite_true, ite_false] <;>
    cases h1 : connect (if config.dbSslMode = "prefer"
        then { config with dbSslMode := "require" } else config) <;>
    simp_all <;>
    rename_i e <;>
    by_cases he : e = sslNotEnabledError ∧ config.dbSslMode = "prefer" <;>
    simp_all <;>
    cases h2 : connect { config with dbSslMode := "disable" } <;> simp_all

/-- Witness for `establish_record_preserves_config` at a concrete failing
target: the returned record keeps the "prefer" mode and a nil connection. -/
theorem establish_record_preserves_config_witness :
    (establishConnection (fun _ => .error "connection refused")
      { sectionName := "db2", dbSslMode := "prefer", otherParams := "" }).1.config =
      { sectionName := "db2", dbSslMode := "prefer", otherParams := "" } ∧
    (establishConnection (fun _ => .error "connection refused")
      { sectionName := "db2", dbSslMode := "prefer", otherParams := "" }).1.connection
      = none := by
  have h := establish_record_preserves_config (fun _ => .error "connection refused")
      { sectionName := "db2", dbSslMode := "prefer", otherParams := "" }
  exact ⟨h.1, h.2.1 "connection refused" (by decide)⟩

/-! ## CronResolver: `ReadSchedulerGroups` (scheduler.go lines 45-63) -/

/-- An opaque parsed cron expression (`*cronexpr.Expression`); only its
identity matters to the orchestrator core. -/
structure CronExpr where
  raw : String
  deriving Repr, DecidableEq

/-- A schedule group as decoded from the configuration, before its interval
expression is resolved (`Group` with `interval` still nil). -/
structure GroupIn where
  method : String
  intervalName : String
  deriving Repr, DecidableEq

/-- A schedule group whose `interval` field has been filled with the parsed
expression. -/
structure GroupOut where
  method : String
  intervalName : String
  interval : CronExpr
  deriving Repr, DecidableEq

/-- The expression string a group resolves to: Go's
`config.Intervals[group.IntervalName]`, where a missing map key yields the
zero value `""`. -/
def intervalExprOf (intervals : List (String × String)) (g : GroupIn) : String :=
  (intervals.lookup g.intervalName).getD ""

/-- Embedding of the resolution loop of `ReadSchedulerGroups` (scheduler.go
lines 51-62): for each group, parse its referenced interval expression,
returning on the first parse error with no partial mapping (the named return
`groups` is still nil at that point), and otherwise returning every group
with its expression attached. -/
def resolveGroups (parse : String → Option CronExpr)
    (intervals : List (String × String)) :
    List (String × GroupIn) → Except Unit (List (String × GroupOut))
  | [] => .ok []
  | (key, g) :: rest =>
    match parse (intervalExprOf intervals g) with
    | none => .error ()
    | some expr =>
      match resolveGroups parse intervals rest with
      | .error () => .error ()
      | .ok out => .ok ((key,
          { method := g.method, intervalName := g.intervalName,
            interval := expr }) :: out)

/-- Embedding of `ReadSchedulerGroups` after toml decoding has produced the
interval table and group table (the claim's inputs). -/
def ReadSchedulerGroups (parse : String → Option CronExpr)
    (intervals : List (String × String)) (groups : List (String × GroupIn)) :
    Except Unit (List (String × GroupOut)) :=
  resolveGroups parse intervals groups

/-- C7. Resolution is all-or-nothing: if some group's interval name is absent
from the interval table (so the zero-value `""` is parsed, and `parse "" =
none` as for `cronexpr.Parse`), or some referenced expression fails to parse,
the whole resolution returns an error with no partial mapping; otherwise it
returns every group, in order, with its expression resolved. -/
theorem readSchedulerGroups_fail_fast (parse : String → Option CronExpr)
    (intervals : List (String × String)) (groups : List (String × GroupIn))
    (hempty : parse "" = none) :
    ((∃ kg ∈ groups, intervals.lookup kg.2.intervalName = none ∨
        parse (intervalExprOf intervals kg.2) = none) →
      ReadSchedulerGroups parse intervals groups = .error ()) ∧
    ((∀ kg ∈ groups, parse (intervalExprOf intervals kg.2) ≠ none) →
      ReadSchedulerGroups parse intervals groups =
        .ok (groups.map (fun kg =>
          (kg.1, { method := kg.2.method, intervalName := kg.2.intervalName,
                   interval := (parse (intervalExprOf intervals kg.2)).getD
                     ⟨""⟩ })))) := by
  constructor
  · rintro ⟨kg, hmem, hbad⟩
    have hfail : parse (intervalExprOf intervals kg.2) = none := by
      rcases hbad with h | h
      · rw [intervalExprOf, h] at *
        simpa [intervalExprOf, h] using hempty
      · exact h
    clear hbad
    induction groups with
    | nil => simp at hmem
    | cons hd tl ih =>
      rcases List.mem_cons.mp hmem with rfl | htl
      · simp [ReadSchedulerGroups, resolveGroups, hfail]
      · simp only [ReadSchedulerGroups, resolveGroups]
        cases hp : parse (intervalExprOf intervals hd.2) with
        | none => rfl
        | some e =>
          have := ih htl
          simp only [ReadSchedulerGroups] at this
          rw [this]
  · intro hall
    induction groups with
    | nil => simp [ReadSchedulerGroups, resolveGroups]
    | cons hd tl ih =>
      have hhd := hall hd (List.mem_cons_self hd tl)
      cases hp : parse (intervalExprOf intervals hd.2) with
      | none => exact absurd hp hhd
      | some e =>
        have htl : ∀ kg ∈ tl, parse (intervalExprOf intervals kg.2) ≠ none :=
          fun kg hm => hall kg (List.mem_cons_of_mem hd hm)
        have := ih htl
        simp only [ReadSchedulerGroups] at this ⊢
        simp [resolveGroups, hp, this]

/-- Witness for `readSchedulerGroups_fail_fast`: with a parser that rejects
the empty string and a group referencing an absent interval name, resolution
of the whole set fails. -/
theorem readSchedulerGroups_fail_fast_witness :
    ReadSchedulerGroups (fun s => if s = "" then none else some ⟨s⟩)
      [("standard", "*/5 * * * *")]
      [("stats", { method := "full", intervalName := "standard" }),
       ("logs", { method := "full", intervalName := "missing" })] = .error () := by
  have h := (readSchedulerGroups_fail_fast
      (fun s => if s = "" then none else some ⟨s⟩)
      [("standard", "*/5 * * * *")]
      [("stats", { method := "full", intervalName := "standard" }),
       ("logs", { method := "full", intervalName := "missing" })] rfl).1
  exact h ⟨("logs", { method := "full", intervalName := "missing" }),
    by simp, Or.inl (by simp)⟩

/-! ## Scheduler: `Group.Schedule` (scheduler.go lines 22-43)

The goroutine started by `Schedule` runs
`for { delay := next-now; select { case <-time.After(delay): runner(); case <-stop: return } }`.
We embed it as a fuel-indexed recursion over instants (`Nat`): each round
computes the fire time, races the timer against a pending stop send, and
either runs the task synchronously (time advances past its duration before
the next fire time is computed) or receives the stop and returns. -/

/-- The two cases of the select at scheduler.go lines 31-38. -/
inductive SelectCase where
  | fire
  | stopped
  deriving Repr, DecidableEq

/-- The select race between the timer (ready at `fireTime`) and a stop send
(pending from instant `c` on, if requested).  The case that becomes ready
strictly first is taken; if both become ready at the same instant, Go's
`select` chooses among the ready cases nondeterministically, embedded as the
`tie` parameter (`true` = the stop case is chosen). -/
def selectRace (cancelAt : Option Nat) (fireTime : Nat) (tie : Bool) : SelectCase :=
  match cancelAt with
  | none => .fire
  | some c =>
    if c < fireTime then .stopped
    else if fireTime < c then .fire
    else if tie then .stopped else .fire

/-- Observable outcome of one run of the scheduling goroutine:
the `(start, completion)` instants of each `runner()` invocation in order;
the instant at which the loop received the stop send and returned (`none` if
the fuel ran out with the loop still live); and how many receives the loop
performed on the `stop` channel. -/
structure LoopResult where
  invocations : List (Nat × Nat)
  exitTime : Option Nat
  stopReceives : Nat
  deriving Repr, DecidableEq

/-- Embedding of the scheduling loop.  `nextFire now` is
`group.interval.Next(time.Now())` (strictly after `now` for a parseable cron
expression), `dur t` is the duration of the `runner()` call fired at `t`,
`cancelAt` is the instant a stop send was requested (the sender blocks until
the loop receives it), and `tie` resolves a simultaneous-readiness select. -/
def scheduleLoop (nextFire : Nat → Nat) (dur : Nat → Nat) (cancelAt : Option Nat)
    (tie : Bool) : Nat → Nat → List (Nat × Nat) → LoopResult
  | 0, _, acc => ⟨acc.reverse, none, 0⟩
  | fuel + 1, now, acc =>
    let f := nextFire now
    match selectRace cancelAt f tie with
    | .stopped => ⟨acc.reverse, some (max now (cancelAt.getD 0)), 1⟩
    | .fire => scheduleLoop nextFire dur cancelAt tie fuel (f + dur f)
        ((f, f + dur f) :: acc)

/-- The accumulator only prepends already-recorded invocations: every run is
the run from an empty accumulator with `acc.reverse` in front. -/
lemma scheduleLoop_acc (nf : Nat → Nat) (dur : Nat → Nat) (c : Option Nat)
    (tie : Bool) :
    ∀ (fuel now : Nat) (acc : List (Nat × Nat)),
    scheduleLoop nf dur c tie fuel now acc =
      { invocations := acc.reverse ++ (scheduleLoop nf dur c tie fuel now []).invocations,
        exitTime := (scheduleLoop nf dur c tie fuel now []).exitTime,
        stopReceives := (scheduleLoop nf dur c tie fuel now []).stopReceives } := by
  intro fuel
  induction fuel with
  | zero => intro now acc; simp [scheduleLoop]
  | succ n ih =>
    intro now acc
    simp only [scheduleLoop]
    cases h : selectRace c (nf now) tie with
    | stopped => simp
    | fire =>
      rw [ih (nf now + dur (nf now)) ((nf now, nf now + dur (nf now)) :: acc),
        ih (nf now + dur (nf now)) [(nf now, nf now + dur (nf now))]]
      simp

/-- If the loop received the stop and returned, it did so no earlier than the
instant at which it was running. -/
lemma scheduleLoop_exit_ge (nf : Nat → Nat) (dur : Nat → Nat) (c : Option Nat)
    (tie : Bool) (hstrict : ∀ t, t < nf t) :
    ∀ (fuel now t : Nat),
    (scheduleLoop nf dur c tie fuel now []).exitTime = some t → now ≤ t := by
  intro fuel
  induction fuel with
  | zero => intro now t h; simp [scheduleLoop] at h
  | succ n ih =>
    intro now t h
    simp only [scheduleLoop] at h
    cases hr : selectRace c (nf now) tie with
    | stopped =>
      rw [hr] at h
      simp at h
      omega
    | fire =>
      rw [hr] at h
      rw [scheduleLoop_acc] at h
      simp at h
      have h2 := ih (nf now + dur (nf now)) t h
      have h3 := hstrict now
      omega

/-- Every invocation fires strictly after the instant the loop was at, and
runs for exactly its duration. -/
lemma scheduleLoop_start_gt (nf : Nat → Nat) (dur : Nat → Nat) (c : Option Nat)
    (tie : Bool) (hstrict : ∀ t, t < nf t) :
    ∀ (fuel now : Nat) (p : Nat × Nat),
    p ∈ (scheduleLoop nf dur c tie fuel now []).invocations →
      now < p.1 ∧ p.2 = p.1 + dur p.1 := by
  intro fuel
  induction fuel with
  | zero => intro now p h; simp [scheduleLoop] at h
  | succ n ih =>
    intro now p h
    simp only [scheduleLoop] at h
    cases hr : selectRace c (nf now) tie with
    | stopped => rw [hr] at h; simp at h
    | fire =>
      rw [hr] at h
      rw [scheduleLoop_acc] at h
      simp only [List.reverse_cons, List.reverse_nil, List.nil_append,
        List.singleton_append, List.mem_cons] at h
      rcases h with rfl | h
      · exact ⟨hstrict now, rfl⟩
      · have h2 := ih _ _ h
        have h3 := hstrict now
        exact ⟨by omega, h2.2⟩

/-- Invocations complete no later than the instant the loop exited. -/
lemma scheduleLoop_end_le_exit (nf : Nat → Nat) (dur : Nat → Nat) (c : Option Nat)
    (tie : Bool) (hstrict : ∀ t, t < nf t) :
    ∀ (fuel now t : Nat),
    (scheduleLoop nf dur c tie fuel now []).exitTime = some t →
    ∀ p ∈ (scheduleLoop nf dur c tie fuel now []).invocations, p.2 ≤ t := by
  intro fuel
  induction fuel with
  | zero => intro now t h; simp [scheduleLoop] at h
  | succ n ih =>
    intro now t h p hp
    simp only [scheduleLoop] at h hp
    cases hr : selectRace c (nf now) tie with
    | stopped => rw [hr] at hp; simp at hp
    | fire =>
      rw [hr] at h hp
      rw [scheduleLoop_acc] at h hp
      simp at h hp
      rcases hp with hp | hp
      · rcases hp with ⟨hp1, hp2⟩
        have hge := scheduleLoop_exit_ge nf dur c tie hstrict n (nf now + dur (nf now)) t h
        omega
      · exact ih _ _ h p hp

/-- Within one handle, invocations are strictly sequential: each completes
before the next one starts (the loop does not compute the next fire time
until `runner()` has returned, and the next fire time is strictly later). -/
lemma scheduleLoop_chain (nf : Nat → Nat) (dur : Nat → Nat) (c : Option Nat)
    (tie : Bool) (hstrict : ∀ t, t < nf t) :
    ∀ (fuel now : Nat),
    List.Chain' (fun p q : Nat × Nat => p.2 < q.1)
      (scheduleLoop nf dur c tie fuel now []).invocations := by
  intro fuel
  induction fuel with
  | zero => intro now; simp [scheduleLoop]
  | succ n ih =>
    intro now
    simp only [scheduleLoop]
    cases hr : selectRace c (nf now) tie with
    | stopped => simp
    | fire =>
      rw [scheduleLoop_acc]
      simp only [List.reverse_cons, List.reverse_nil, List.nil_append,
        List.singleton_append]
      rw [List.chain'_cons']
      refine ⟨?_, ih _⟩
      intro q hq
      have hmem : q ∈ (scheduleLoop nf dur c tie n (nf now + dur (nf now)) []).invocations :=
        List.mem_of_mem_head? hq
      have h2 := scheduleLoop_start_gt nf dur c tie hstrict n _ q hmem
      simpa using h2.1

/-- For a nonempty list, the `getLast?` element is a member. -/
lemma mem_of_getLast?_mem {α : Type} {l : List α} {x : α} (h : x ∈ l.getLast?) :
    x ∈ l := by
  rcases List.mem_getLast?_eq_getLast h with ⟨h1, rfl⟩
  exact List.getLast_mem h1

/-- C3.  No two invocations of the same schedule group's task ever overlap:
within one handle, each invocation completes strictly before the next one
starts (the loop invokes `runner()` synchronously and only then recomputes
the next fire time, which is strictly in the future); and across a reload —
where main's unbuffered `stop <- true` completes only when the old loop's
select receives it and returns, and the new generation's handle is started
only afterwards (`goto ReadConfigAndRun`), embedded by starting the new loop
at the old loop's exit instant — the concatenation of the two generations'
invocations is still strictly sequential. -/
theorem schedule_no_overlap (nf nfNew dur durNew : Nat → Nat) (c : Nat)
    (cNew : Option Nat) (tie tieNew : Bool) (fuel fuelNew now : Nat)
    (hstrict : ∀ t, t < nf t) (hstrictNew : ∀ t, t < nfNew t) :
    List.Chain' (fun p q : Nat × Nat => p.2 < q.1)
      (scheduleLoop nf dur (some c) tie fuel now []).invocations ∧
    (∀ t, (scheduleLoop nf dur (some c) tie fuel now []).exitTime = some t →
      List.Chain' (fun p q : Nat × Nat => p.2 < q.1)
        ((scheduleLoop nf dur (some c) tie fuel now []).invocations ++
          (scheduleLoop nfNew durNew cNew tieNew fuelNew t []).invocations)) := by
  refine ⟨scheduleLoop_chain nf dur (some c) tie hstrict fuel now, ?_⟩
  intro t ht
  rw [List.chain'_append]
  refine ⟨scheduleLoop_chain nf dur (some c) tie hstrict fuel now,
    scheduleLoop_chain nfNew durNew cNew tieNew hstrictNew fuelNew t, ?_⟩
  intro x hx y hy
  have hxl : x ∈ (scheduleLoop nf dur (some c) tie fuel now []).invocations :=
    mem_of_getLast?_mem hx
  have hyl : y ∈ (scheduleLoop nfNew durNew cNew tieNew fuelNew t []).invocations :=
    List.mem_of_mem_head? hy
  have h1 := scheduleLoop_end_le_exit nf dur (some c) tie hstrict fuel now t ht x hxl
  have h2 := scheduleLoop_start_gt nfNew durNew cNew tieNew hstrictNew fuelNew t y hyl
  omega

/-- Witness for `schedule_no_overlap` at a concrete reload: the old handle
(fire every 5 instants, stop requested at instant 12) runs passes (5,6) and
(11,12) and exits at 12; the new handle started at 12 (fire every 3 instants)
runs (15,16) and (19,20); the combined history is strictly sequential. -/
theorem schedule_no_overlap_witness :
    (scheduleLoop (fun t => t + 5) (fun _ => 1) (some 12) true 5 0 []).invocations =
      [(5, 6), (11, 12)] ∧
    (scheduleLoop (fun t => t + 3) (fun _ => 1) none true 2 12 []).invocations =
      [(15, 16), (19, 20)] ∧
    List.Chain' (fun p q : Nat × Nat => p.2 < q.1)
      ((scheduleLoop (fun t => t + 5) (fun _ => 1) (some 12) true 5 0 []).invocations ++
        (scheduleLoop (fun t => t + 3) (fun _ => 1) none true 2 12 []).invocations) := by
  refine ⟨rfl, rfl, ?_⟩
  exact (schedule_no_overlap (fun t => t + 5) (fun t => t + 3) (fun _ => 1)
    (fun _ => 1) 12 none true true 5 2 0 (fun t => by show t < t + 5; omega)
    (fun t => by show t < t + 3; omega)).2 12 rfl

/-! ### C5: cancellation versus the timer -/

/-- Counterexample to C5 as stated.  Cancellation is requested at instant 1
and the next computed fire time is also instant 1 (both select cases become
ready in the same instant).  C5 claims cancellation wins the tie and the loop
exits without invoking the task; but Go's `select` chooses among several
ready cases nondeterministically, and with the tie resolved to the timer case
the task IS invoked (at (1,1)) before the loop exits at the following select. -/
theorem schedule_cancel_tie_counterexample :
    scheduleLoop (fun t => t + 1) (fun _ => 0) (some 1) false 2 0 [] =
      ⟨[(1, 1)], some 1, 1⟩ := by
  rfl

/-- C5 amended.  If cancellation is requested strictly before the next
computed fire time, the loop exits at once without invoking the task (and no
further invocation ever happens on the handle); if cancellation and the fire
time coincide, the select's choice is nondeterministic: if it picks the stop
case the loop exits without invoking, and if it picks the timer the task is
invoked exactly once more, after which the loop exits at the next select. -/
theorem schedule_cancel_precedence (nf dur : Nat → Nat) (c : Nat) (tie : Bool)
    (fuel now : Nat) (hstrict : ∀ t, t < nf t) :
    (c < nf now →
      scheduleLoop nf dur (some c) tie (fuel + 1) now [] =
        ⟨[], some (max now c), 1⟩) ∧
    (c = nf now → tie = true →
      scheduleLoop nf dur (some c) tie (fuel + 1) now [] =
        ⟨[], some (max now c), 1⟩) ∧
    (c = nf now → tie = false →
      scheduleLoop nf dur (some c) tie (fuel + 2) now [] =
        ⟨[(c, c + dur c)], some (c + dur c), 1⟩) := by
  refine ⟨?_, ?_, ?_⟩
  · intro hlt
    simp [scheduleLoop, selectRace, hlt]
  · intro heq htie
    subst htie
    simp [scheduleLoop, selectRace, heq]
  · intro heq htie
    subst htie
    subst heq
    have h1 : selectRace (some (nf now)) (nf now) false = .fire := by
      simp [selectRace]
    have h2 : selectRace (some (nf now)) (nf (nf now + dur (nf now))) false
        = .stopped := by
      have h3 := hstrict (nf now + dur (nf now))
      simp only [selectRace]
      rw [if_pos (by omega)]
    have h4 : max (nf now + dur (nf now)) (nf now) = nf now + dur (nf now) :=
      Nat.max_eq_left (by omega)
    simp only [scheduleLoop, h1, h2, Option.getD_some]
    simp [h4]

/-- Witness for `schedule_cancel_precedence`: with fire times every 5
instants and cancellation requested at instant 3 (strictly before the fire
at instant 5), the loop exits at instant 3 with no invocation. -/
theorem schedule_cancel_precedence_witness :
    scheduleLoop (fun t => t + 5) (fun _ => 2) (some 3) false 1 0 [] =
      ⟨[], some (max 0 3), 1⟩ :=
  (schedule_cancel_precedence (fun t => t + 5) (fun _ => 2) 3 false 0 0
    (fun t => by show t < t + 5; omega)).1 (by show (3:Nat) < 0 + 5; omega)

/-! ### C6: signaling the handle more than once -/

/-- Whether the n-th send on the unbuffered `stop` channel ever completes:
the channel has no buffer, so each completed send is matched with one receive
performed by the loop, in order of arrival. -/
def sendCompletes (r : LoopResult) (n : Nat) : Bool :=
  n ≤ r.stopReceives

/-- C6 amended.  The loop executes `return` immediately upon its single
receive from `stop`, so over any execution it performs at most one receive:
a first cancellation is received at most once, and a second signal is never
received — it never invokes the task, but (the channel being unbuffered and
the goroutine gone) the second sender is never matched, i.e. it blocks its
caller indefinitely rather than being a harmless no-op. -/
theorem schedule_handle_single_receive (nf dur : Nat → Nat) (c : Option Nat)
    (tie : Bool) (fuel now : Nat) (acc : List (Nat × Nat)) :
    (scheduleLoop nf dur c tie fuel now acc).stopReceives ≤ 1 ∧
    sendCompletes (scheduleLoop nf dur c tie fuel now acc) 2 = false := by
  have h : ∀ (fuel now : Nat) (acc : List (Nat × Nat)),
      (scheduleLoop nf dur c tie fuel now acc).stopReceives ≤ 1 := by
    intro fuel
    induction fuel with
    | zero => intro now acc; simp [scheduleLoop]
    | succ n ih =>
      intro now acc
      simp only [scheduleLoop]
      cases hr : selectRace c (nf now) tie with
      | stopped => simp
      | fire => exact ih _ _
  refine ⟨h fuel now acc, ?_⟩
  have h2 := h fuel now acc
  simp only [sendCompletes, decide_eq_false_iff_not]
  omega

/-- Counterexample to C6 as stated.  After the first cancellation has taken
effect (the loop received the stop at instant 0 and returned, having
performed its one and only receive), a second signal of the handle is never
received: `sendCompletes r 2 = false`.  On the unbuffered `stop` channel a
send only completes by synchronizing with a receive, so the second signal
blocks its caller forever — the claim states it does nothing further and in
particular does not block the caller. -/
theorem schedule_handle_second_signal_blocks :
    (scheduleLoop (fun t => t + 1) (fun _ => 0) (some 0) true 1 0 []).stopReceives
      = 1 ∧
    sendCompletes (scheduleLoop (fun t => t + 1) (fun _ => 0) (some 0) true 1 0 []) 2
      = false := by
  constructor <;> rfl

/-! ## Orchestrator: `run` and `main` (part_000 lines 168-275) -/

/-- The target-establishment loop of `run` (part_000 lines 183-191): each
configured target is passed to `establishConnection`; on error the target is
logged and dropped, on success it is appended to `databases`. -/
def buildDatabases (connect : DatabaseConfig → Except String Nat) :
    List DatabaseConfig → List ConfigAndConnection
  | [] => []
  | c :: rest =>
    match (establishConnection connect c).2.1 with
    | some _ => buildDatabases connect rest
    | none => (establishConnection connect c).1 :: buildDatabases connect rest

/-- Embedding of `collectAllDatabases` (part_000 lines 116-124): one pass
iterates the databases in order, invoking per-target collection
(`collectStatistics`, an oracle here) on each; an error is logged with the
target's section name and the loop continues.  The result records, in order,
each target's section name with its collection outcome. -/
def collectAllDatabases (collect : ConfigAndConnection → Option String)
    (databases : List ConfigAndConnection) : List (String × Option String) :=
  databases.map fun d => (d.config.sectionName, collect d)

/-- C8.  A failed `Establish` never aborts the others: the databases list is
exactly the configurations whose establishment succeeded, in configuration
order, each paired with its record; and a triggered pass produces one
per-target collection outcome for exactly those targets, continuing past
individual collection failures. -/
theorem run_per_target_isolation (connect : DatabaseConfig → Except String Nat)
    (collect : ConfigAndConnection → Option String)
    (configs : List DatabaseConfig) :
    buildDatabases connect configs =
      (configs.filter fun c => (establishConnection connect c).2.1 = none).map
        (fun c => (establishConnection connect c).1) ∧
    (collectAllDatabases collect (buildDatabases connect configs)).map Prod.fst =
      ((configs.filter fun c => (establishConnection connect c).2.1 = none).map
        (fun c => (establishConnection connect c).1.config.sectionName)) ∧
    (∀ d ∈ buildDatabases connect configs,
      (d.config.sectionName, collect d) ∈
        collectAllDatabases collect (buildDatabases connect configs)) := by
  have hbuild : buildDatabases connect configs =
      (configs.filter fun c => (establishConnection connect c).2.1 = none).map
        (fun c => (establishConnection connect c).1) := by
    induction configs with
    | nil => rfl
    | cons c rest ih =>
      simp only [buildDatabases, List.filter_cons]
      cases h : (establishConnection connect c).2.1 with
      | some e => simp [h, ih]
      | none => simp [h, ih]
  refine ⟨hbuild, ?_, ?_⟩
  · rw [hbuild]
    simp [collectAllDatabases, Function.comp]
  · intro d hd
    simp only [collectAllDatabases]
    exact List.mem_map_of_mem _ hd

/-- Witness for `run_per_target_isolation`, the spec's own scenario: three
targets where the second one's establishment fails give a Generation of
targets 1 and 3 only, and a pass produces outcomes for exactly those two —
even though target 3's collection itself fails (isolation at both levels). -/
theorem run_per_target_isolation_witness :
    buildDatabases
      (fun c => if c.sectionName = "t2" then .error "connection refused" else .ok 1)
      [{ sectionName := "t1", dbSslMode := "disable", otherParams := "" },
       { sectionName := "t2", dbSslMode := "disable", otherParams := "" },
       { sectionName := "t3", dbSslMode := "disable", otherParams := "" }] =
      [{ config := { sectionName := "t1", dbSslMode := "disable", otherParams := "" },
         connection := some 1 },
       { config := { sectionName := "t3", dbSslMode := "disable", otherParams := "" },
         connection := some 1 }] ∧
    (collectAllDatabases
      (fun d => if d.config.sectionName = "t3" then some "query failed" else none)
      (buildDatabases
        (fun c => if c.sectionName = "t2" then .error "connection refused" else .ok 1)
        [{ sectionName := "t1", dbSslMode := "disable", otherParams := "" },
         { sectionName := "t2", dbSslMode := "disable", otherParams := "" },
         { sectionName := "t3", dbSslMode := "disable", otherParams := "" }])).map
      Prod.fst = ["t1", "t3"] := by
  have h := run_per_target_isolation
    (fun c => if c.sectionName = "t2" then .error "connection refused" else .ok 1)
    (fun d => if d.config.sectionName = "t3" then some "query failed" else none)
    [{ sectionName := "t1", dbSslMode := "disable", otherParams := "" },
     { sectionName := "t2", dbSslMode := "disable", otherParams := "" },
     { sectionName := "t3", dbSslMode := "disable", otherParams := "" }]
  exact ⟨h.1.trans (by rfl), h.2.1.trans (by rfl)⟩

/-! ### `run` control flow and the `ReadConfigAndRun` loop of `main` -/

/-- Control-flow skeleton of `run` (part_000 lines 168-207): on a scheduler
groups error (line 171) or a configuration read error (line 177) it logs
"awaiting SIGHUP or process kill" and returns nil; in test mode it collects
once synchronously and returns nil; otherwise it arms the scheduler and
returns the stop handle together with the generation's databases. -/
def run (schedulerGroupsOk : Bool) (configLoad : Option (List DatabaseConfig))
    (connect : DatabaseConfig → Except String Nat) (testRun : Bool) :
    Option (List ConfigAndConnection) :=
  if ¬schedulerGroupsOk then none
  else
    match configLoad with
    | none => none
    | some configs =>
      let databases := buildDatabases connect configs
      if testRun then none
      else some databases

/-- How the process leaves (or fails to leave) the `ReadConfigAndRun` loop of
`main` (part_000 lines 254-275). -/
inductive ProcessOutcome where
  | exitedWithoutSignal
  | exitedAfterTerminate (generationsRun : Nat)
  | blockedAwaitingSignal (generation : Nat)
  deriving Repr, DecidableEq

/-- Embedding of the `ReadConfigAndRun` loop of `main` (part_000 lines
254-275): `runOutcome g` is the result of the g-th call to `run`; `sigs` is
the sequence of delivered signals (`true` = SIGHUP, `false` =
SIGTERM/interrupt).  A nil handle makes `main` return at once (line 257);
otherwise `main` blocks on the signal channel, sends the stop (received by
the generation's loop, which then returns), and either jumps back for a
fresh generation (SIGHUP) or exits after the drain wait. -/
def mainLoop (runOutcome : Nat → Option (List ConfigAndConnection)) :
    List Bool → Nat → ProcessOutcome
  | sigs, gen =>
    match runOutcome gen with
    | none => .exitedWithoutSignal
    | some _ =>
      match sigs with
      | [] => .blockedAwaitingSignal gen
      | s :: rest =>
        if s then mainLoop runOutcome rest (gen + 1)
        else .exitedAfterTerminate (gen + 1)

/-- C2 (code bug).  `run` does log "awaiting SIGHUP or process kill" on a
configuration error, but it returns nil and `main` then executes `return`
(part_000 lines 256-258): the process exits on its own without awaiting any
signal.  Evaluated here at the failing inputs: a scheduler-groups read error,
a configuration read error at startup, and a configuration error on a SIGHUP
reload all end in `exitedWithoutSignal` even though no termination signal was
ever delivered. -/
theorem main_exits_on_config_error :
    run false none (fun _ => .ok 0) false = none ∧
    run true none (fun _ => .ok 0) false = none ∧
    mainLoop (fun _ => run true none (fun _ => .ok 0) false) [] 0 =
      .exitedWithoutSignal ∧
    mainLoop (fun g => if g = 0 then some [] else none) [true] 0 =
      .exitedWithoutSignal := by
  refine ⟨rfl, rfl, rfl, rfl⟩

/-! ### The drain wait of `main` and the by-value `sync.WaitGroup` -/

/-- Go's `sync.WaitGroup`, reduced to its counter. -/
structure WaitGroup where
  counter : Nat
  deriving Repr, DecidableEq

/-- The WaitGroup state relevant to the drain: `main`'s variable `wg` (line
252), which `wg.Wait()` (line 274) observes, and the by-value parameter of
`func run(wg sync.WaitGroup, ...)` (line 168), a distinct copy captured by
the closure passed to `Schedule` (lines 200-204). -/
structure DrainState where
  mainWg : WaitGroup
  runWg : WaitGroup
  deriving Repr, DecidableEq

/-- `run(wg, testRun, ...)` at part_000 line 255: Go passes the
`sync.WaitGroup` argument by value, so `run`'s parameter is a copy of
`main`'s variable. -/
def invokeRun (wg : WaitGroup) : DrainState :=
  { mainWg := wg, runWg := wg }

/-- `wg.Add(1)` at the start of a scheduled pass (line 201) executes on the
copy captured by the closure. -/
def passStart (s : DrainState) : DrainState :=
  { s with runWg := ⟨s.runWg.counter + 1⟩ }

/-- `wg.Done()` at the end of a scheduled pass (line 203), again on the copy. -/
def passEnd (s : DrainState) : DrainState :=
  { s with runWg := ⟨s.runWg.counter - 1⟩ }

/-- `wg.Wait()` (line 274) returns immediately iff the counter it observes —
`main`'s own variable — is zero. -/
def waitReturnsImmediately (s : DrainState) : Bool :=
  s.mainWg.counter = 0

/-- C1 (code bug).  Because `run` takes the `sync.WaitGroup` by value, the
counter incremented by the scheduled task (`run`'s copy, captured by the
closure) and the counter the shutdown path waits on (`main`'s variable) are
NOT the same counter.  Evaluated at the failing input — one pass has started
and not finished when the terminate signal's `wg.Wait()` runs — the pass's
increment is visible only on the copy, `main`'s counter is still zero, and
the drain wait returns immediately instead of blocking. -/
theorem drain_wait_ignores_inflight_pass :
    (passStart (invokeRun ⟨0⟩)).runWg.counter = 1 ∧
    (passStart (invokeRun ⟨0⟩)).mainWg.counter = 0 ∧
    waitReturnsImmediately (passStart (invokeRun ⟨0⟩)) = true ∧
    (passStart (invokeRun ⟨0⟩)).runWg ≠ (passStart (invokeRun ⟨0⟩)).mainWg := by
  refine ⟨rfl, rfl, rfl, by decide⟩

/-! ### Connection lifecycle across generations -/

/-- Connection-lifecycle events observable from the orchestrator: a
connection opened for a target of some generation, or closed.  The Go source
contains no `db.Close()` call, so `run` and `main` can only ever emit
`opened` events; `closed` exists in the model to state what the trace does
NOT contain. -/
inductive ConnEvent where
  | opened (generation : Nat) (sectionName : String)
  | closed (generation : Nat) (sectionName : String)
  deriving Repr, DecidableEq

/-- Whether an event is a close. -/
def ConnEvent.isClosed : ConnEvent → Bool
  | .opened _ _ => false
  | .closed _ _ => true

/-- Connection events of one call to `run` (part_000 lines 183-191): one
connection is opened per successfully established target; `run` closes
nothing. -/
def runConnEvents (gen : Nat) (connect : DatabaseConfig → Except String Nat)
    (configs : List DatabaseConfig) : List ConnEvent :=
  (buildDatabases connect configs).map fun d => .opened gen d.config.sectionName

/-- Connection events of the `ReadConfigAndRun` loop of `main` (part_000
lines 254-275): each generation's `run` opens its targets' connections; a
SIGHUP retires the generation (`stop <- true`) and starts the next one, and a
terminate signal retires it and exits after the drain wait.  Nothing in the
source closes a retired generation's connections, so no `closed` event is
ever appended. -/
def mainConnEvents (connect : DatabaseConfig → Except String Nat)
    (configsOf : Nat → List DatabaseConfig) :
    List Bool → Nat → List ConnEvent
  | sigs, gen =>
    runConnEvents gen connect (configsOf gen) ++
      match sigs with
      | [] => []
      | s :: rest =>
        if s then mainConnEvents connect configsOf rest (gen + 1)
        else []

/-- Counterexample to C9 as stated.  Concrete scenario: one target "db1" in
every generation, a SIGHUP reload (retiring generation 0) followed by a
terminate signal (retiring generation 1 and exiting the process).  The claim
requires the trace to close generation 0's connection at the reload and
generation 1's at process exit; the actual trace consists of the two opens
and contains no close of generation 0's connection — nor any close at all. -/
theorem connections_not_closed_on_retirement :
    mainConnEvents (fun _ => .ok 1)
      (fun _ => [{ sectionName := "db1", dbSslMode := "disable", otherParams := "" }])
      [true, false] 0 =
      [.opened 0 "db1", .opened 1 "db1"] ∧
    ConnEvent.closed 0 "db1" ∉
      mainConnEvents (fun _ => .ok 1)
        (fun _ => [{ sectionName := "db1", dbSslMode := "disable", otherParams := "" }])
        [true, false] 0 := by
  refine ⟨rfl, by decide⟩

/-- C9 amended.  Target connections are opened at configuration load (one per
successfully established target), but a retired Generation's connections are
never closed by the program: neither a reload nor process exit emits a close
— the event trace of any execution of the `ReadConfigAndRun` loop contains no
close event whatsoever. -/
theorem connections_never_closed (connect : DatabaseConfig → Except String Nat)
    (configsOf : Nat → List DatabaseConfig) (sigs : List Bool) (gen : Nat) :
    (mainConnEvents connect configsOf sigs gen).filter
      (fun e => e.isClosed) = [] := by
  induction sigs generalizing gen with
  | nil =>
    simp only [mainConnEvents, List.append_nil, runConnEvents]
    induction buildDatabases connect (configsOf gen) with
    | nil => rfl
    | cons d rest ih => simp only [List.map_cons, List.filter_cons,
        ConnEvent.isClosed, Bool.false_eq_true, if_false, decide_False]; exact ih
  | cons s rest ih =>
    simp only [mainConnEvents, List.filter_append]
    have h1 : (runConnEvents gen connect (configsOf gen)).filter
        (fun e => e.isClosed) = [] := by
      simp only [runConnEvents]
      induction buildDatabases connect (configsOf gen) with
      | nil => rfl
      | cons d rest2 ih2 => simp only [List.map_cons, List.filter_cons,
          ConnEvent.isClosed, Bool.false_eq_true, if_false, decide_False]; exact ih2
    rw [h1]
    cases s with
    | true => simpa using ih (gen + 1)
    | false => rfl

end Collector
